import Mathlib

/-!
# Verification of the Markov-city attribute generator (`markov_city.py`)

Shallow embedding of the Markov-chain attribute-generation engine of
`MarkovCity`: the constructor (`__init__`), the two successor samplers
(`get_next_height`, `get_next_color`) and the grid traversal
(`get_building_info`).

Modelling conventions:
* Python floats are modelled as exact rationals (`ℚ`); numpy's
  tolerance check on probability vectors becomes exact equality with 1.
* Python dicts are modelled as insertion-ordered association lists;
  `list(d.keys())` is `d.map Prod.fst`, and `d[k]` is `dlookup k d`
  (raising `KeyError`, i.e. `none`, when the key is absent).
* The ambient `np.random` stream is modelled as an explicit source
  `src : ℕ → ℚ` together with a cursor `n : ℕ`: the k-th uniform draw
  has value `src k`, and each successful `np.random.choice` call advances
  the cursor by one.  The cursor is returned alongside every result, so
  "number of draws consumed" is observable in the model.
* Exceptions (`KeyError`, numpy's `ValueError` on a bad `p`, `IndexError`)
  are modelled with `Except PyErr`.
* `self` is threaded through the traversal loops as an explicit value and
  returned, so that "the method does not mutate the object" is a provable
  statement rather than a modelling artefact.
-/

/-- A building color: an RGB triple of (exact) reals, as in the Python
tuples used as color states. -/
abbrev Color : Type := ℚ × ℚ × ℚ

/-- One grid cell: the pair `(next_height, next_color)` stored by
`get_building_info`. -/
abbrev Cell : Type := ℤ × Color

/-- The 2-D array returned by `get_building_info`, row-major. -/
abbrev Grid : Type := List (List Cell)

/-- Python exceptions that the embedded code can raise: `KeyError` from a
dict subscript, `ValueError` from `np.random.choice` (bad `p`, empty `a`)
or `max([])`, `IndexError` from a list subscript. -/
inductive PyErr : Type where
  | keyError : PyErr
  | valueError : PyErr
  | indexError : PyErr
deriving DecidableEq

/-- Python dict lookup `d[k]` on an insertion-ordered association list:
`none` models a raised `KeyError`. -/
def dlookup {κ β : Type} [DecidableEq κ] (a : κ) : List (κ × β) → Option β
  | [] => none
  | (k, v) :: rest => if a = k then some v else dlookup a rest

/-- The list comprehension `[d[k] for k in ks]`: all lookups must succeed,
otherwise a `KeyError` (modelled as `none`) is raised. -/
def lookupAll {κ : Type} [DecidableEq κ] (d : List (κ × ℚ)) : List κ → Option (List ℚ)
  | [] => some []
  | k :: ks =>
    match dlookup k d, lookupAll d ks with
    | some v, some vs => some (v :: vs)
    | _, _ => none

/-- Exact rational addition by cross-multiplication.  It is provably equal
to `HAdd.hAdd` on `ℚ` (`qadd_eq_add` below); it is spelled out so that
every arithmetic step of the embedding evaluates by kernel reduction. -/
def qadd (a b : ℚ) : ℚ := mkRat (a.num * b.den + b.num * a.den) (a.den * b.den)

/-- Exact rational subtraction by cross-multiplication; provably equal to
`HSub.hSub` on `ℚ` (`qsub_eq_sub` below). -/
def qsub (a b : ℚ) : ℚ := mkRat (a.num * b.den - b.num * a.den) (a.den * b.den)

/-- The sum of a list of rationals (equal to `List.sum`, see
`sumQ_eq_sum`). -/
def sumQ (p : List ℚ) : ℚ := p.foldr qadd 0

theorem qadd_eq_add (a b : ℚ) : qadd a b = a + b := by
  have ha : ((a.den : ℚ)) ≠ 0 := by
    exact_mod_cast fun h => a.den_nz (by exact_mod_cast h)
  have hb : ((b.den : ℚ)) ≠ 0 := by
    exact_mod_cast fun h => b.den_nz (by exact_mod_cast h)
  rw [qadd, Rat.mkRat_eq_div]
  push_cast
  conv_rhs => rw [← Rat.num_div_den a, ← Rat.num_div_den b,
    div_add_div _ _ ha hb]
  ring_nf

theorem qsub_eq_sub (a b : ℚ) : qsub a b = a - b := by
  have ha : ((a.den : ℚ)) ≠ 0 := by
    exact_mod_cast fun h => a.den_nz (by exact_mod_cast h)
  have hb : ((b.den : ℚ)) ≠ 0 := by
    exact_mod_cast fun h => b.den_nz (by exact_mod_cast h)
  rw [qsub, Rat.mkRat_eq_div]
  push_cast
  conv_rhs => rw [← Rat.num_div_den a, ← Rat.num_div_den b,
    div_sub_div _ _ ha hb]
  ring_nf

theorem sumQ_eq_sum (p : List ℚ) : sumQ p = p.sum := by
  induction p with
  | nil => rfl
  | cons q qs ih => rw [sumQ, List.foldr_cons, List.sum_cons, qadd_eq_add, ← ih]; rfl

/-- Index selected by inverse-CDF sampling, as `np.random.choice` does with
a probability vector `p` and a uniform draw `u`: the smallest `i` with
`u < p[0] + ... + p[i]`, clamped to the last index on floating-point
drift past the final cumulative sum. -/
def selectIdx : List ℚ → ℚ → ℕ
  | [], _ => 0
  | [_], _ => 0
  | q :: r :: qs, u => if u < q then 0 else selectIdx (r :: qs) (qsub u q) + 1

/-- `np.random.choice(a, p = p)` consuming one uniform draw from the
source: validates that `p` matches `a` in length, has no negative entry
and sums to 1 (numpy raises `ValueError` otherwise, before drawing), then
selects by inverse CDF and advances the draw cursor. -/
def npChoice {α : Type} (a : List α) (p : List ℚ) (src : ℕ → ℚ) (n : ℕ) :
    Except PyErr (α × ℕ) :=
  if a.length ≠ p.length then .error .valueError
  else if p.any (fun q => decide (q < 0)) then .error .valueError
  else if sumQ p ≠ 1 then .error .valueError
  else
    match a[selectIdx p (src n)]? with
    | some x => .ok (x, n + 1)
    | none => .error .valueError

/-- The fields of a `MarkovCity` object, in the order `__init__` assigns
them.  Heights are Python ints (`ℤ`), colors are RGB triples. -/
structure MarkovCity : Type where
  height_transition_matrix : List (ℤ × List (ℤ × ℚ))
  height_prior_vector : List (ℤ × ℚ)
  heights : List ℤ
  max_height : ℤ
  color_transition_matrix : List (Color × List (Color × ℚ))
  color_prior_vector : List (Color × ℚ)
  colors : List Color
deriving DecidableEq

/-- `MarkovCity.__init__`: stores the four dicts verbatim, sets
`heights = list(height_transition_matrix.keys())`,
`max_height = max(heights)` (raising `ValueError` on an empty list, hence
`none`), and `colors = list(color_transition_matrix)`.  No other
computation — in particular no probability validation — happens. -/
def MarkovCity.init (htm : List (ℤ × List (ℤ × ℚ))) (hpv : List (ℤ × ℚ))
    (ctm : List (Color × List (Color × ℚ))) (cpv : List (Color × ℚ)) :
    Option MarkovCity :=
  let hts := htm.map Prod.fst
  match hts.max? with
  | none => none
  | some m =>
    some { height_transition_matrix := htm
           height_prior_vector := hpv
           heights := hts
           max_height := m
           color_transition_matrix := ctm
           color_prior_vector := cpv
           colors := ctm.map Prod.fst }

/-- `get_next_height(current_height)`: builds
`p = [matrix[current][h] for h in heights]` (a `KeyError` if `current` or
any inner key is missing) and calls `np.random.choice(heights, p = p)`. -/
def get_next_height (city : MarkovCity) (current : ℤ) (src : ℕ → ℚ) (n : ℕ) :
    Except PyErr (ℤ × ℕ) :=
  match dlookup current city.height_transition_matrix with
  | none => .error .keyError
  | some row =>
    match lookupAll row city.heights with
    | none => .error .keyError
    | some p => npChoice city.heights p src n

/-- `get_next_color(current_color)`: builds the aligned probability vector,
samples an index from `range(len(colors))` and returns `colors[index]`
(the final subscript would raise `IndexError` if out of range). -/
def get_next_color (city : MarkovCity) (current : Color) (src : ℕ → ℚ) (n : ℕ) :
    Except PyErr (Color × ℕ) :=
  match dlookup current city.color_transition_matrix with
  | none => .error .keyError
  | some row =>
    match lookupAll row city.colors with
    | none => .error .keyError
    | some p =>
      match npChoice (List.range city.colors.length) p src n with
      | .error e => .error e
      | .ok (idx, n1) =>
        match city.colors[idx]? with
        | some col => .ok (col, n1)
        | none => .error .indexError

/-- The inner `for col in range(num_cols)` loop of `get_building_info`:
for each column, draw `next_height` then `next_color`, store the pair, and
carry the pair into the next iteration.  The `MarkovCity` value is
threaded through explicitly (the Python body never assigns to `self`). -/
def loopCols (city : MarkovCity) (src : ℕ → ℚ) :
    ℕ → ℤ → Color → ℕ → Except PyErr (MarkovCity × List Cell × ℤ × Color × ℕ)
  | 0, h, c, n => .ok (city, [], h, c, n)
  | numCols + 1, h, c, n =>
    match get_next_height city h src n with
    | .error e => .error e
    | .ok (h1, n1) =>
      match get_next_color city c src n1 with
      | .error e => .error e
      | .ok (c1, n2) =>
        match loopCols city src numCols h1 c1 n2 with
        | .error e => .error e
        | .ok (city1, cells, hf, cf, nf) =>
          .ok (city1, (h1, c1) :: cells, hf, cf, nf)

/-- The outer `for row in range(num_rows)` loop of `get_building_info`:
runs the column loop once per row, carrying the chain state and the draw
cursor across row boundaries (no reset). -/
def loopRows (city : MarkovCity) (src : ℕ → ℚ) (numCols : ℕ) :
    ℕ → ℤ → Color → ℕ → Except PyErr (MarkovCity × Grid × ℤ × Color × ℕ)
  | 0, h, c, n => .ok (city, [], h, c, n)
  | numRows + 1, h, c, n =>
    match loopCols city src numCols h c n with
    | .error e => .error e
    | .ok (city1, cells, h1, c1, n1) =>
      match loopRows city1 src numCols numRows h1 c1 n1 with
      | .error e => .error e
      | .ok (city2, rows, hf, cf, nf) =>
        .ok (city2, cells :: rows, hf, cf, nf)

/-- `get_building_info(num_rows, num_cols)`: samples the initial height
from the height prior and the initial color from the color prior (two
draws, height first), then fills the grid in row-major order.  Returns
the object (unchanged by the Python code), the grid, and the final draw
cursor. -/
def get_building_info (city : MarkovCity) (numRows numCols : ℕ)
    (src : ℕ → ℚ) (n : ℕ) : Except PyErr (MarkovCity × Grid × ℕ) :=
  match lookupAll city.height_prior_vector city.heights with
  | none => .error .keyError
  | some ph =>
    match npChoice city.heights ph src n with
    | .error e => .error e
    | .ok (h0, n1) =>
      match lookupAll city.color_prior_vector city.colors with
      | none => .error .keyError
      | some pc =>
        match npChoice (List.range city.colors.length) pc src n1 with
        | .error e => .error e
        | .ok (idx, n2) =>
          match city.colors[idx]? with
          | none => .error .indexError
          | some c0 =>
            match loopRows city src numCols numRows h0 c0 n2 with
            | .error e => .error e
            | .ok (city1, grid, _, _, nf) => .ok (city1, grid, nf)

/-! ## Validity of a model, and deterministic characterization of sampling

`validCityB` is the decidable well-formedness condition under which every
sampling step of the traversal succeeds: nonempty state lists, priors
defined on every state and forming a distribution, and every state's
transition row defined on every state and forming a distribution.  Under
it, each `np.random.choice` call is the deterministic function of the
current draw given by `selectIdx`, which the `nextH`/`nextC`/`initH`/
`initC` functions package up. -/

/-- A probability vector: no negative entries and total mass exactly 1
(the embedding's rendering of numpy's `1 ± tolerance` check on exact
rationals). -/
def distOk (p : List ℚ) : Bool :=
  p.all (fun q => decide (0 ≤ q)) && decide (sumQ p = 1)

/-- Every state of `ks` has a row in `d` that is defined on all of `ks`
and is a probability vector. -/
def matrixOkB {κ : Type} [DecidableEq κ] (d : List (κ × List (κ × ℚ)))
    (ks : List κ) : Bool :=
  ks.all fun k =>
    match dlookup k d with
    | none => false
    | some row =>
      match lookupAll row ks with
      | none => false
      | some p => distOk p

/-- The prior is defined on all of `ks` and is a probability vector. -/
def priorOkB {κ : Type} [DecidableEq κ] (pv : List (κ × ℚ)) (ks : List κ) : Bool :=
  match lookupAll pv ks with
  | none => false
  | some p => distOk p

/-- Well-formedness of a `MarkovCity` model: both state lists nonempty,
both priors valid, and both transition matrices valid (square over the
state list with stochastic rows). -/
def validCityB (city : MarkovCity) : Bool :=
  decide (city.heights ≠ []) && decide (city.colors ≠ []) &&
  priorOkB city.height_prior_vector city.heights &&
  priorOkB city.color_prior_vector city.colors &&
  matrixOkB city.height_transition_matrix city.heights &&
  matrixOkB city.color_transition_matrix city.colors

/-- The probability vector `[matrix[current][h] for h in heights]` built
by `get_next_height`, with `[]` standing for the (invalid-model) error
cases.  Used only to state closed-form theorems about the success path. -/
def heightRow (city : MarkovCity) (h : ℤ) : List ℚ :=
  match dlookup h city.height_transition_matrix with
  | none => []
  | some row => (lookupAll row city.heights).getD []

/-- The probability vector built by `get_next_color`. -/
def colorRow (city : MarkovCity) (c : Color) : List ℚ :=
  match dlookup c city.color_transition_matrix with
  | none => []
  | some row => (lookupAll row city.colors).getD []

/-- The height returned by a successful `get_next_height` call whose
uniform draw has value `u`. -/
def nextH (city : MarkovCity) (h : ℤ) (u : ℚ) : ℤ :=
  city.heights.getD (selectIdx (heightRow city h) u) 0

/-- The color returned by a successful `get_next_color` call whose uniform
draw has value `u`. -/
def nextC (city : MarkovCity) (c : Color) (u : ℚ) : Color :=
  city.colors.getD (selectIdx (colorRow city c) u) (0, 0, 0)

/-- The initial height sampled from the height prior on draw `u`. -/
def initH (city : MarkovCity) (u : ℚ) : ℤ :=
  city.heights.getD
    (selectIdx ((lookupAll city.height_prior_vector city.heights).getD []) u) 0

/-- The initial color sampled from the color prior on draw `u`. -/
def initC (city : MarkovCity) (u : ℚ) : Color :=
  city.colors.getD
    (selectIdx ((lookupAll city.color_prior_vector city.colors).getD []) u) (0, 0, 0)

/-- The height chain: state after `k` cells, when the height draw for the
`k`-th cell (0-based) is the draw with cursor `n0 + 2*k`. -/
def hChain (city : MarkovCity) (src : ℕ → ℚ) (h0 : ℤ) (n0 : ℕ) : ℕ → ℤ
  | 0 => h0
  | k + 1 => nextH city (hChain city src h0 n0 k) (src (n0 + 2 * k))

/-- The color chain: state after `k` cells, when the color draw for the
`k`-th cell (0-based) is the draw with cursor `n0 + 2*k + 1`. -/
def cChain (city : MarkovCity) (src : ℕ → ℚ) (c0 : Color) (n0 : ℕ) : ℕ → Color
  | 0 => c0
  | k + 1 => nextC city (cChain city src c0 n0 k) (src (n0 + 2 * k + 1))

/-- Closed form of the grid produced by `get_building_info` on a valid
model: cell `(r, j)` holds the chain states after `r*C + j + 1` steps,
where the two prior draws sit at cursors `n` and `n+1` and the cell's two
draws at cursors `n + 2 + 2*(r*C+j)` (height) and `n + 2 + 2*(r*C+j) + 1`
(color). -/
def gridSpec (city : MarkovCity) (src : ℕ → ℚ) (numRows numCols n : ℕ) : Grid :=
  (List.range numRows).map fun r =>
    (List.range numCols).map fun j =>
      (hChain city src (initH city (src n)) (n + 2) (r * numCols + j + 1),
       cChain city src (initC city (src (n + 1))) (n + 2) (r * numCols + j + 1))

/-! ## Concrete example data (used by witnesses and counterexamples) -/

/-- A first example color (pure red). -/
def colA : Color := (1, 0, 0)

/-- A second example color (pure blue). -/
def colB : Color := (0, 0, 1)

/-- An example height transition matrix over states `{0, 1}` with uniform
rows. -/
def htmEx : List (ℤ × List (ℤ × ℚ)) :=
  [(0, [(0, mkRat 1 2), (1, mkRat 1 2)]), (1, [(0, mkRat 1 2), (1, mkRat 1 2)])]

/-- An example height prior over `{0, 1}`. -/
def hpvEx : List (ℤ × ℚ) := [(0, mkRat 1 2), (1, mkRat 1 2)]

/-- An example color transition matrix over `{colA, colB}`. -/
def ctmEx : List (Color × List (Color × ℚ)) :=
  [(colA, [(colA, mkRat 1 2), (colB, mkRat 1 2)]),
   (colB, [(colA, mkRat 1 2), (colB, mkRat 1 2)])]

/-- An example color prior over `{colA, colB}`. -/
def cpvEx : List (Color × ℚ) := [(colA, mkRat 1 2), (colB, mkRat 1 2)]

/-- The `MarkovCity` object built by `__init__` from the example data. -/
def cityEx : MarkovCity :=
  { height_transition_matrix := htmEx
    height_prior_vector := hpvEx
    heights := [0, 1]
    max_height := 1
    color_transition_matrix := ctmEx
    color_prior_vector := cpvEx
    colors := [colA, colB] }

/-- A deterministic replayable random source used in witnesses. -/
def srcEx : ℕ → ℚ := fun _ => mkRat 1 3

example : MarkovCity.init htmEx hpvEx ctmEx cpvEx = some cityEx := by decide
example : validCityB cityEx = true := by decide

/-! ## Basic lemmas about the sampling primitives -/

theorem selectIdx_lt (p : List ℚ) (u : ℚ) (hp : p ≠ []) :
    selectIdx p u < p.length := by
  induction p generalizing u with
  | nil => exact absurd rfl hp
  | cons q qs ih =>
    cases qs with
    | nil => simp [selectIdx]
    | cons r rs =>
      simp only [selectIdx]
      split
      · simp
      · have := ih (qsub u q) (by simp)
        simp only [List.length_cons] at this ⊢
        omega

theorem lookupAll_length {κ : Type} [DecidableEq κ] (d : List (κ × ℚ))
    (ks : List κ) (p : List ℚ) (h : lookupAll d ks = some p) :
    p.length = ks.length := by
  induction ks generalizing p with
  | nil =>
    simp only [lookupAll, Option.some.injEq] at h
    subst h; rfl
  | cons k ks ih =>
    rw [lookupAll] at h
    cases hv : dlookup k d with
    | none => rw [hv] at h; exact absurd h (by simp)
    | some v =>
      rw [hv] at h
      cases hrest : lookupAll d ks with
      | none => rw [hrest] at h; exact absurd h (by simp)
      | some vs =>
        rw [hrest, Option.some.injEq] at h
        subst h
        simp [ih vs hrest]

theorem dlookup_eq_none_iff {κ β : Type} [DecidableEq κ] (a : κ)
    (l : List (κ × β)) : dlookup a l = none ↔ a ∉ l.map Prod.fst := by
  induction l with
  | nil => simp [dlookup]
  | cons kv rest ih =>
    obtain ⟨k, v⟩ := kv
    by_cases hak : a = k
    · subst hak; simp [dlookup]
    · simp [dlookup, hak, ih]

theorem mem_keys_dlookup {κ β : Type} [DecidableEq κ] {a : κ}
    {l : List (κ × β)} (h : a ∈ l.map Prod.fst) : ∃ v, dlookup a l = some v := by
  cases hv : dlookup a l with
  | some v => exact ⟨v, rfl⟩
  | none => exact absurd h ((dlookup_eq_none_iff a l).mp hv)

theorem distOk_no_neg {p : List ℚ} (h : distOk p = true) :
    p.any (fun q => decide (q < 0)) = false := by
  rw [distOk, Bool.and_eq_true] at h
  obtain ⟨h1, -⟩ := h
  rw [List.all_eq_true] at h1
  cases hq : p.any (fun q => decide (q < 0)) with
  | false => rfl
  | true =>
    rw [List.any_eq_true] at hq
    obtain ⟨q, hq1, hq2⟩ := hq
    have := h1 q hq1
    simp only [decide_eq_true_eq] at this hq2
    linarith

theorem distOk_sum {p : List ℚ} (h : distOk p = true) : sumQ p = 1 := by
  rw [distOk, Bool.and_eq_true] at h
  exact of_decide_eq_true h.2

/-- On a valid probability vector over a nonempty support, `np.random.choice`
succeeds and returns the inverse-CDF selection, consuming one draw. -/
theorem npChoice_ok {α : Type} (a : List α) (p : List ℚ) (src : ℕ → ℚ)
    (n : ℕ) (d : α) (hlen : a.length = p.length) (hd : distOk p = true)
    (hne : a ≠ []) :
    npChoice a p src n = .ok (a.getD (selectIdx p (src n)) d, n + 1) := by
  have hpne : p ≠ [] := by
    intro h0
    subst h0
    exact hne (List.length_eq_zero.mp hlen)
  have hidx : selectIdx p (src n) < a.length := hlen ▸ selectIdx_lt p (src n) hpne
  rw [npChoice, if_neg (fun h0 => h0 hlen), distOk_no_neg hd]
  simp only [Bool.false_eq_true, if_false]
  rw [if_neg (fun h0 => h0 (distOk_sum hd))]
  rw [List.getElem?_eq_getElem hidx, List.getD_eq_getElem a d hidx]

theorem matrixOkB_spec {κ : Type} [DecidableEq κ]
    {d : List (κ × List (κ × ℚ))} {ks : List κ} (h : matrixOkB d ks = true)
    {k : κ} (hk : k ∈ ks) :
    ∃ row p, dlookup k d = some row ∧ lookupAll row ks = some p ∧
      distOk p = true := by
  rw [matrixOkB, List.all_eq_true] at h
  have hx := h k hk
  split at hx
  · exact absurd hx (by simp)
  · rename_i row hrow
    split at hx
    · exact absurd hx (by simp)
    · rename_i p hp
      exact ⟨row, p, hrow, hp, hx⟩

theorem priorOkB_spec {κ : Type} [DecidableEq κ] {pv : List (κ × ℚ)}
    {ks : List κ} (h : priorOkB pv ks = true) :
    ∃ p, lookupAll pv ks = some p ∧ distOk p = true := by
  rw [priorOkB] at h
  split at h
  · exact absurd h (by simp)
  · rename_i p hp
    exact ⟨p, hp, h⟩

theorem validCity_parts {city : MarkovCity} (h : validCityB city = true) :
    city.heights ≠ [] ∧ city.colors ≠ [] ∧
    priorOkB city.height_prior_vector city.heights = true ∧
    priorOkB city.color_prior_vector city.colors = true ∧
    matrixOkB city.height_transition_matrix city.heights = true ∧
    matrixOkB city.color_transition_matrix city.colors = true := by
  rw [validCityB] at h
  simp only [Bool.and_eq_true, decide_eq_true_eq] at h
  tauto

/-! ## The samplers on a valid model -/

theorem get_next_height_ok {city : MarkovCity} (hv : validCityB city = true)
    {h : ℤ} (hh : h ∈ city.heights) (src : ℕ → ℚ) (n : ℕ) :
    get_next_height city h src n = .ok (nextH city h (src n), n + 1) := by
  obtain ⟨hne, -, -, -, hm, -⟩ := validCity_parts hv
  obtain ⟨row, p, hrow, hp, hd⟩ := matrixOkB_spec hm hh
  simp only [get_next_height, hrow, hp]
  rw [npChoice_ok city.heights p src n 0 (lookupAll_length _ _ _ hp).symm hd hne]
  simp [nextH, heightRow, hrow, hp]

theorem nextH_mem {city : MarkovCity} (hv : validCityB city = true)
    {h : ℤ} (hh : h ∈ city.heights) (u : ℚ) : nextH city h u ∈ city.heights := by
  obtain ⟨hne, -, -, -, hm, -⟩ := validCity_parts hv
  obtain ⟨row, p, hrow, hp, hd⟩ := matrixOkB_spec hm hh
  have hlen : p.length = city.heights.length := lookupAll_length _ _ _ hp
  have hpne : p ≠ [] := by
    intro h0
    subst h0
    exact hne (List.length_eq_zero.mp hlen.symm)
  have hidx : selectIdx p u < city.heights.length := hlen ▸ selectIdx_lt p u hpne
  simp only [nextH, heightRow, hrow, hp, Option.getD_some]
  rw [List.getD_eq_getElem _ _ hidx]
  exact List.getElem_mem hidx

theorem get_next_color_ok {city : MarkovCity} (hv : validCityB city = true)
    {c : Color} (hc : c ∈ city.colors) (src : ℕ → ℚ) (n : ℕ) :
    get_next_color city c src n = .ok (nextC city c (src n), n + 1) := by
  obtain ⟨-, hne, -, -, -, hm⟩ := validCity_parts hv
  obtain ⟨row, p, hrow, hp, hd⟩ := matrixOkB_spec hm hc
  have hlen : p.length = city.colors.length := lookupAll_length _ _ _ hp
  have hpne : p ≠ [] := by
    intro h0
    subst h0
    exact hne (List.length_eq_zero.mp hlen.symm)
  have hidx : selectIdx p (src n) < city.colors.length :=
    hlen ▸ selectIdx_lt p (src n) hpne
  have hchoice := npChoice_ok (List.range city.colors.length) p src n 0
    ((List.length_range _).trans hlen.symm) hd
    (by
      intro h0
      exact hne (List.length_eq_zero.mp (by simpa [List.range_eq_nil] using h0)))
  have hrange : (List.range city.colors.length).getD (selectIdx p (src n)) 0 =
      selectIdx p (src n) := by
    rw [List.getD_eq_getElem _ _ (by simpa using hidx), List.getElem_range]
  simp only [get_next_color, hrow, hp, hchoice, hrange,
    List.getElem?_eq_getElem hidx]
  simp [nextC, colorRow, hrow, hp, List.getD_eq_getElem _ _ hidx,
    List.getElem?_eq_getElem hidx]

theorem nextC_mem {city : MarkovCity} (hv : validCityB city = true)
    {c : Color} (hc : c ∈ city.colors) (u : ℚ) : nextC city c u ∈ city.colors := by
  obtain ⟨-, hne, -, -, -, hm⟩ := validCity_parts hv
  obtain ⟨row, p, hrow, hp, hd⟩ := matrixOkB_spec hm hc
  have hlen : p.length = city.colors.length := lookupAll_length _ _ _ hp
  have hpne : p ≠ [] := by
    intro h0
    subst h0
    exact hne (List.length_eq_zero.mp hlen.symm)
  have hidx : selectIdx p u < city.colors.length := hlen ▸ selectIdx_lt p u hpne
  simp only [nextC, colorRow, hrow, hp, Option.getD_some]
  rw [List.getD_eq_getElem _ _ hidx]
  exact List.getElem_mem hidx

/-! ## Chain recurrence lemmas -/

theorem hChain_succ_shift (city : MarkovCity) (src : ℕ → ℚ) (h0 : ℤ) (n0 k : ℕ) :
    hChain city src h0 n0 (k + 1) =
      hChain city src (nextH city h0 (src n0)) (n0 + 2) k := by
  induction k with
  | zero => rfl
  | succ k ih =>
    show nextH city (hChain city src h0 n0 (k + 1)) (src (n0 + 2 * (k + 1))) =
      nextH city (hChain city src (nextH city h0 (src n0)) (n0 + 2) k)
        (src (n0 + 2 + 2 * k))
    rw [ih]
    have harith : n0 + 2 * (k + 1) = n0 + 2 + 2 * k := by ring
    rw [harith]

theorem cChain_succ_shift (city : MarkovCity) (src : ℕ → ℚ) (c0 : Color) (n0 k : ℕ) :
    cChain city src c0 n0 (k + 1) =
      cChain city src (nextC city c0 (src (n0 + 1))) (n0 + 2) k := by
  induction k with
  | zero => rfl
  | succ k ih =>
    show nextC city (cChain city src c0 n0 (k + 1)) (src (n0 + 2 * (k + 1) + 1)) =
      nextC city (cChain city src (nextC city c0 (src (n0 + 1))) (n0 + 2) k)
        (src (n0 + 2 + 2 * k + 1))
    rw [ih]
    have harith : n0 + 2 * (k + 1) + 1 = n0 + 2 + 2 * k + 1 := by ring
    rw [harith]

theorem hChain_add (city : MarkovCity) (src : ℕ → ℚ) (h0 : ℤ) (n0 a b : ℕ) :
    hChain city src h0 n0 (a + b) =
      hChain city src (hChain city src h0 n0 a) (n0 + 2 * a) b := by
  induction b with
  | zero => rfl
  | succ b ih =>
    rw [Nat.add_succ]
    show nextH city (hChain city src h0 n0 (a + b)) (src (n0 + 2 * (a + b))) =
      nextH city (hChain city src (hChain city src h0 n0 a) (n0 + 2 * a) b)
        (src (n0 + 2 * a + 2 * b))
    rw [ih]
    have harith : n0 + 2 * (a + b) = n0 + 2 * a + 2 * b := by ring
    rw [harith]

theorem cChain_add (city : MarkovCity) (src : ℕ → ℚ) (c0 : Color) (n0 a b : ℕ) :
    cChain city src c0 n0 (a + b) =
      cChain city src (cChain city src c0 n0 a) (n0 + 2 * a) b := by
  induction b with
  | zero => rfl
  | succ b ih =>
    rw [Nat.add_succ]
    show nextC city (cChain city src c0 n0 (a + b)) (src (n0 + 2 * (a + b) + 1)) =
      nextC city (cChain city src (cChain city src c0 n0 a) (n0 + 2 * a) b)
        (src (n0 + 2 * a + 2 * b + 1))
    rw [ih]
    have harith : n0 + 2 * (a + b) + 1 = n0 + 2 * a + 2 * b + 1 := by ring
    rw [harith]

theorem hChain_mem {city : MarkovCity} (hv : validCityB city = true)
    (src : ℕ → ℚ) {h0 : ℤ} (hh : h0 ∈ city.heights) (n0 k : ℕ) :
    hChain city src h0 n0 k ∈ city.heights := by
  induction k with
  | zero => exact hh
  | succ k ih => exact nextH_mem hv ih _

theorem cChain_mem {city : MarkovCity} (hv : validCityB city = true)
    (src : ℕ → ℚ) {c0 : Color} (hc : c0 ∈ city.colors) (n0 k : ℕ) :
    cChain city src c0 n0 k ∈ city.colors := by
  induction k with
  | zero => exact hc
  | succ k ih => exact nextC_mem hv ih _

/-! ## The traversal loops on a valid model -/

theorem loopCols_eq {city : MarkovCity} (src : ℕ → ℚ)
    (hv : validCityB city = true) :
    ∀ (numCols : ℕ) (h : ℤ) (c : Color) (n : ℕ),
      h ∈ city.heights → c ∈ city.colors →
      loopCols city src numCols h c n = .ok (city,
        (List.range numCols).map
          (fun j => (hChain city src h n (j + 1), cChain city src c n (j + 1))),
        hChain city src h n numCols, cChain city src c n numCols,
        n + 2 * numCols) := by
  intro numCols
  induction numCols with
  | zero =>
    intro h c n hh hc
    simp [loopCols, hChain, cChain]
  | succ numCols ih =>
    intro h c n hh hc
    have hih := ih (nextH city h (src n)) (nextC city c (src (n + 1))) (n + 2)
      (nextH_mem hv hh _) (nextC_mem hv hc _)
    have hlist : (List.range (numCols + 1)).map
        (fun j => (hChain city src h n (j + 1), cChain city src c n (j + 1))) =
        (nextH city h (src n), nextC city c (src (n + 1))) ::
        (List.range numCols).map
          (fun j => (hChain city src (nextH city h (src n)) (n + 2) (j + 1),
                     cChain city src (nextC city c (src (n + 1))) (n + 2) (j + 1))) := by
      rw [List.range_succ_eq_map, List.map_cons, List.map_map]
      congr 1
      refine congrArg (fun f => List.map f (List.range numCols)) (funext fun j => ?_)
      simp only [Function.comp_apply]
      exact congrArg₂ Prod.mk (hChain_succ_shift city src h n (j + 1))
        (cChain_succ_shift city src c n (j + 1))
    simp only [loopCols, get_next_height_ok hv hh src n,
      get_next_color_ok hv hc src (n + 1), hih]
    rw [hlist, hChain_succ_shift city src h n numCols,
      cChain_succ_shift city src c n numCols,
      show n + 2 * (numCols + 1) = n + 2 + 2 * numCols from by ring]

theorem loopRows_eq {city : MarkovCity} (src : ℕ → ℚ)
    (hv : validCityB city = true) (numCols : ℕ) :
    ∀ (numRows : ℕ) (h : ℤ) (c : Color) (n : ℕ),
      h ∈ city.heights → c ∈ city.colors →
      loopRows city src numCols numRows h c n = .ok (city,
        (List.range numRows).map (fun r => (List.range numCols).map
          (fun j => (hChain city src h n (r * numCols + j + 1),
                     cChain city src c n (r * numCols + j + 1)))),
        hChain city src h n (numRows * numCols),
        cChain city src c n (numRows * numCols),
        n + 2 * (numRows * numCols)) := by
  intro numRows
  induction numRows with
  | zero =>
    intro h c n hh hc
    simp [loopRows, hChain, cChain]
  | succ numRows ih =>
    intro h c n hh hc
    have hih := ih (hChain city src h n numCols) (cChain city src c n numCols)
      (n + 2 * numCols) (hChain_mem hv src hh n numCols)
      (cChain_mem hv src hc n numCols)
    have hlist : (List.range (numRows + 1)).map (fun r => (List.range numCols).map
        (fun j => (hChain city src h n (r * numCols + j + 1),
                   cChain city src c n (r * numCols + j + 1)))) =
        ((List.range numCols).map
          (fun j => (hChain city src h n (j + 1), cChain city src c n (j + 1)))) ::
        (List.range numRows).map (fun r => (List.range numCols).map
          (fun j => (hChain city src (hChain city src h n numCols)
                       (n + 2 * numCols) (r * numCols + j + 1),
                     cChain city src (cChain city src c n numCols)
                       (n + 2 * numCols) (r * numCols + j + 1)))) := by
      rw [List.range_succ_eq_map, List.map_cons, List.map_map]
      congr 1
      · simp only [Nat.zero_mul, Nat.zero_add]
      · refine congrArg (fun f => List.map f (List.range numRows)) (funext fun r => ?_)
        simp only [Function.comp_apply]
        refine congrArg (fun f => List.map f (List.range numCols)) (funext fun j => ?_)
        have harith : Nat.succ r * numCols + j + 1 =
            numCols + (r * numCols + j + 1) := by
          rw [Nat.succ_eq_add_one]; ring
        rw [harith, hChain_add, cChain_add]
    have hhf : hChain city src h n ((numRows + 1) * numCols) =
        hChain city src (hChain city src h n numCols) (n + 2 * numCols)
          (numRows * numCols) := by
      rw [show (numRows + 1) * numCols = numCols + numRows * numCols from by ring,
        hChain_add]
    have hcf : cChain city src c n ((numRows + 1) * numCols) =
        cChain city src (cChain city src c n numCols) (n + 2 * numCols)
          (numRows * numCols) := by
      rw [show (numRows + 1) * numCols = numCols + numRows * numCols from by ring,
        cChain_add]
    simp only [loopRows, loopCols_eq src hv numCols h c n hh hc, hih]
    rw [hlist, hhf, hcf,
      show n + 2 * ((numRows + 1) * numCols)
        = n + 2 * numCols + 2 * (numRows * numCols) from by ring]

/-! ## The initial (prior) samples on a valid model -/

theorem initH_mem {city : MarkovCity} (hv : validCityB city = true) (u : ℚ) :
    initH city u ∈ city.heights := by
  obtain ⟨hne, -, hpr, -, -, -⟩ := validCity_parts hv
  obtain ⟨ph, hph, -⟩ := priorOkB_spec hpr
  have hlen := lookupAll_length _ _ _ hph
  have hpne : ph ≠ [] := by
    intro h0
    subst h0
    exact hne (List.length_eq_zero.mp hlen.symm)
  have hidx : selectIdx ph u < city.heights.length := hlen ▸ selectIdx_lt ph u hpne
  simp only [initH, hph, Option.getD_some]
  rw [List.getD_eq_getElem _ _ hidx]
  exact List.getElem_mem hidx

theorem initC_mem {city : MarkovCity} (hv : validCityB city = true) (u : ℚ) :
    initC city u ∈ city.colors := by
  obtain ⟨-, hne, -, hpr, -, -⟩ := validCity_parts hv
  obtain ⟨pc, hpc, -⟩ := priorOkB_spec hpr
  have hlen := lookupAll_length _ _ _ hpc
  have hpne : pc ≠ [] := by
    intro h0
    subst h0
    exact hne (List.length_eq_zero.mp hlen.symm)
  have hidx : selectIdx pc u < city.colors.length := hlen ▸ selectIdx_lt pc u hpne
  simp only [initC, hpc, Option.getD_some]
  rw [List.getD_eq_getElem _ _ hidx]
  exact List.getElem_mem hidx

/-- Master characterization: on a valid model, `get_building_info` succeeds,
returns the object unchanged, the closed-form grid, and consumes exactly
`2 + 2*R*C` draws (2 for the priors, then 2 per cell). -/
theorem get_building_info_closed (city : MarkovCity) (numRows numCols : ℕ)
    (src : ℕ → ℚ) (n : ℕ) (hv : validCityB city = true) :
    get_building_info city numRows numCols src n =
      .ok (city, gridSpec city src numRows numCols n,
           n + 2 + 2 * (numRows * numCols)) := by
  obtain ⟨hne, hcne, hpr, hcpr, -, -⟩ := validCity_parts hv
  obtain ⟨ph, hph, hphd⟩ := priorOkB_spec hpr
  obtain ⟨pc, hpc, hpcd⟩ := priorOkB_spec hcpr
  have hlenh := lookupAll_length _ _ _ hph
  have hlenc := lookupAll_length _ _ _ hpc
  have hpcne : pc ≠ [] := by
    intro h0
    subst h0
    exact hcne (List.length_eq_zero.mp hlenc.symm)
  have hidxc : selectIdx pc (src (n + 1)) < city.colors.length :=
    hlenc ▸ selectIdx_lt pc (src (n + 1)) hpcne
  have hchoiceH := npChoice_ok city.heights ph src n 0 hlenh.symm hphd hne
  have hinitH : city.heights.getD (selectIdx ph (src n)) 0 = initH city (src n) := by
    simp [initH, hph]
  have hchoiceC := npChoice_ok (List.range city.colors.length) pc src (n + 1) 0
    ((List.length_range _).trans hlenc.symm) hpcd
    (by
      intro h0
      exact hcne (List.length_eq_zero.mp (by simpa [List.range_eq_nil] using h0)))
  have hrange : (List.range city.colors.length).getD
      (selectIdx pc (src (n + 1))) 0 = selectIdx pc (src (n + 1)) := by
    rw [List.getD_eq_getElem _ _ (by simpa using hidxc), List.getElem_range]
  have hgetc : city.colors[selectIdx pc (src (n + 1))]? =
      some (initC city (src (n + 1))) := by
    rw [List.getElem?_eq_getElem hidxc]
    simp [initC, hpc, List.getD_eq_getElem _ _ hidxc,
      List.getElem?_eq_getElem hidxc]
  have hloop := loopRows_eq src hv numCols numRows (initH city (src n))
    (initC city (src (n + 1))) (n + 2) (initH_mem hv _) (initC_mem hv _)
  simp only [get_building_info, hph, hchoiceH, hinitH, hpc, hchoiceC, hrange,
    hgetc, hloop, gridSpec]

/-! ## Frame preservation: the loops never change the object (no `self`
assignment occurs in the Python method bodies), on any input, valid or
not. -/

theorem loopCols_frame (city : MarkovCity) (src : ℕ → ℚ) :
    ∀ (numCols : ℕ) (h : ℤ) (c : Color) (n : ℕ) city1 cells hf cf nf,
      loopCols city src numCols h c n = .ok (city1, cells, hf, cf, nf) →
      city1 = city := by
  intro numCols
  induction numCols with
  | zero =>
    intro h c n city1 cells hf cf nf hout
    simp only [loopCols, Except.ok.injEq, Prod.mk.injEq] at hout
    exact hout.1.symm
  | succ numCols ih =>
    intro h c n city1 cells hf cf nf hout
    rw [loopCols] at hout
    split at hout
    · exact absurd hout (by simp)
    · split at hout
      · exact absurd hout (by simp)
      · split at hout
        · exact absurd hout (by simp)
        · rename_i city2 cells2 hf2 cf2 nf2 heq
          simp only [Except.ok.injEq, Prod.mk.injEq] at hout
          obtain ⟨h1, -⟩ := hout
          rw [← h1]
          exact ih _ _ _ _ _ _ _ _ heq

theorem loopRows_frame (city : MarkovCity) (src : ℕ → ℚ) (numCols : ℕ) :
    ∀ (numRows : ℕ) (h : ℤ) (c : Color) (n : ℕ) city1 grid hf cf nf,
      loopRows city src numCols numRows h c n = .ok (city1, grid, hf, cf, nf) →
      city1 = city := by
  intro numRows
  induction numRows with
  | zero =>
    intro h c n city1 grid hf cf nf hout
    simp only [loopRows, Except.ok.injEq, Prod.mk.injEq] at hout
    exact hout.1.symm
  | succ numRows ih =>
    intro h c n city1 grid hf cf nf hout
    rw [loopRows] at hout
    split at hout
    · exact absurd hout (by simp)
    · rename_i res1 city2 cells2 h2 c2 n2 heq1
      split at hout
      · exact absurd hout (by simp)
      · rename_i res2 city3 rows3 hf3 cf3 nf3 heq2
        simp only [Except.ok.injEq, Prod.mk.injEq] at hout
        obtain ⟨h1, -⟩ := hout
        rw [← h1]
        rw [loopCols_frame city src numCols h c n city2 cells2 h2 c2 n2 heq1] at heq2
        exact ih _ _ _ _ _ _ _ _ heq2

theorem get_building_info_frame (city : MarkovCity) (numRows numCols : ℕ)
    (src : ℕ → ℚ) (n : ℕ) :
    ∀ city1 grid nf,
      get_building_info city numRows numCols src n = .ok (city1, grid, nf) →
      city1 = city := by
  intro city1 grid nf hout
  rw [get_building_info] at hout
  split at hout
  · exact absurd hout (by simp)
  · split at hout
    · exact absurd hout (by simp)
    · split at hout
      · exact absurd hout (by simp)
      · split at hout
        · exact absurd hout (by simp)
        · split at hout
          · exact absurd hout (by simp)
          · split at hout
            · exact absurd hout (by simp)
            · rename_i heqloop
              simp only [Except.ok.injEq, Prod.mk.injEq] at hout
              obtain ⟨h1, -⟩ := hout
              rw [← h1]
              exact loopRows_frame city src numCols numRows _ _ _ _ _ _ _ _ heqloop

/-- Whenever the height transition matrix is a nonempty dict, `__init__`
completes: `max` is the only operation that can fail, and every field is
stored verbatim with `heights`/`colors` the respective key lists. -/
theorem init_of_ne_nil (htm : List (ℤ × List (ℤ × ℚ))) (hpv : List (ℤ × ℚ))
    (ctm : List (Color × List (Color × ℚ))) (cpv : List (Color × ℚ))
    (hne : htm ≠ []) :
    ∃ city, MarkovCity.init htm hpv ctm cpv = some city ∧
      city.height_transition_matrix = htm ∧ city.height_prior_vector = hpv ∧
      city.color_transition_matrix = ctm ∧ city.color_prior_vector = cpv ∧
      city.heights = htm.map Prod.fst ∧ city.colors = ctm.map Prod.fst := by
  have hk : htm.map Prod.fst ≠ [] := by
    intro h0
    exact hne (List.map_eq_nil_iff.mp h0)
  simp only [MarkovCity.init]
  cases hmax : (htm.map Prod.fst).max? with
  | none => exact absurd (List.max?_eq_none_iff.mp hmax) hk
  | some m => exact ⟨_, rfl, rfl, rfl, rfl, rfl, rfl, rfl⟩

/-- A height transition matrix whose single row sums to 1/2: a distribution
the spec's validation contract must reject. -/
def htmBad : List (ℤ × List (ℤ × ℚ)) := [(0, [(0, mkRat 1 2)])]

/-- A height prior that does not sum to 1 either. -/
def hpvBad : List (ℤ × ℚ) := [(0, mkRat 1 4)]

/-- C1, counterexample.  The claim says construction with a transition-matrix
row that does not sum to 1 (here: a single row summing to 1/2, paired with
a prior summing to 1/4) "fails with a ValidationError and produces no
usable object".  In the code, `__init__` performs no validation at all:
construction succeeds and returns a usable object storing the malformed
dicts verbatim. -/
theorem init_accepts_bad_row :
    MarkovCity.init htmBad hpvBad ctmEx cpvEx =
      some { height_transition_matrix := htmBad
             height_prior_vector := hpvBad
             heights := [0]
             max_height := 0
             color_transition_matrix := ctmEx
             color_prior_vector := cpvEx
             colors := [colA, colB] } := by
  rfl

/-- C1, amended.  `MarkovCity.__init__` validates nothing: for arbitrary
transition matrices and priors — including rows with negative entries or
sums far from 1 — construction succeeds whenever the height matrix has at
least one key (needed only by `max(heights)`), and all four dicts are
stored verbatim; probability defects surface only later, inside
`np.random.choice` during sampling. -/
theorem init_no_validation (htm : List (ℤ × List (ℤ × ℚ)))
    (hpv : List (ℤ × ℚ)) (ctm : List (Color × List (Color × ℚ)))
    (cpv : List (Color × ℚ)) (hne : htm ≠ []) :
    ∃ city, MarkovCity.init htm hpv ctm cpv = some city ∧
      city.height_transition_matrix = htm ∧ city.height_prior_vector = hpv ∧
      city.color_transition_matrix = ctm ∧ city.color_prior_vector = cpv :=
  match init_of_ne_nil htm hpv ctm cpv hne with
  | ⟨city, h1, h2, h3, h4, h5, _, _⟩ => ⟨city, h1, h2, h3, h4, h5⟩

/-- C1, witness for the amended theorem at concrete malformed input. -/
theorem init_no_validation_witness :
    ∃ city, MarkovCity.init htmBad hpvBad ctmEx cpvEx = some city ∧
      city.height_transition_matrix = htmBad ∧
      city.height_prior_vector = hpvBad ∧
      city.color_transition_matrix = ctmEx ∧
      city.color_prior_vector = cpvEx :=
  init_no_validation htmBad hpvBad ctmEx cpvEx (by decide)

/-- C10.  Constructing a `MarkovCity` with an empty height transition matrix
fails (Python's `max([])` raises `ValueError`), and with at least one height
state the construction completes. -/
theorem init_requires_height_state (hpv : List (ℤ × ℚ))
    (ctm : List (Color × List (Color × ℚ))) (cpv : List (Color × ℚ))
    (htm : List (ℤ × List (ℤ × ℚ))) (hne : htm ≠ []) :
    MarkovCity.init [] hpv ctm cpv = none ∧
      (MarkovCity.init htm hpv ctm cpv).isSome = true := by
  refine ⟨rfl, ?_⟩
  obtain ⟨city, h1, -⟩ := init_of_ne_nil htm hpv ctm cpv hne
  rw [h1]
  rfl

/-- C10, witness. -/
theorem init_requires_height_state_witness :
    MarkovCity.init [] hpvEx ctmEx cpvEx = none ∧
      (MarkovCity.init htmEx hpvEx ctmEx cpvEx).isSome = true :=
  init_requires_height_state hpvEx ctmEx cpvEx htmEx (by decide)

/-- C2, counterexample.  The claim says `get_building_info(0, 0)` consumes
zero draws from the random source.  In the code the two prior samples are
drawn *before* the loop, so even for a 0×0 grid the draw cursor advances
from 0 to 2: two draws are consumed. -/
theorem degenerate_grid_consumes_two_draws :
    get_building_info cityEx 0 0 srcEx 0 = .ok (cityEx, [], 2) := by
  rfl

/-- C2, amended.  If `rows == 0` or `cols == 0` (on a valid model), the
grid contains no cells — `rows` rows, each empty — and no exception is
raised, but exactly two draws are consumed (the height and color prior
samples), not zero. -/
theorem degenerate_grid (city : MarkovCity) (numRows numCols : ℕ)
    (src : ℕ → ℚ) (n : ℕ) (hv : validCityB city = true)
    (hzero : numRows * numCols = 0) :
    get_building_info city numRows numCols src n =
      .ok (city, List.replicate numRows [], n + 2) := by
  rw [get_building_info_closed city numRows numCols src n hv, hzero]
  have hgrid : gridSpec city src numRows numCols n =
      List.replicate numRows [] := by
    rcases Nat.mul_eq_zero.mp hzero with hR | hC
    · subst hR
      rfl
    · subst hC
      simp [gridSpec, List.eq_replicate_iff]
  rw [hgrid]

/-- C2, witness for the amended theorem: `generate(3, 0)` returns three
empty rows and moves the draw cursor from 0 to 2. -/
theorem degenerate_grid_witness :
    get_building_info cityEx 3 0 srcEx 0 =
      .ok (cityEx, List.replicate 3 [], 0 + 2) :=
  degenerate_grid cityEx 3 0 srcEx 0 (by decide) (by decide)

/-- C3.  On a valid model, `get_building_info(R, C)` returns a grid of
exactly `R` rows, each of length exactly `C`, for all `R, C ≥ 0`. -/
theorem grid_shape (city : MarkovCity) (numRows numCols : ℕ) (src : ℕ → ℚ)
    (n : ℕ) (hv : validCityB city = true) :
    ∃ grid nf, get_building_info city numRows numCols src n =
        .ok (city, grid, nf) ∧
      grid.length = numRows ∧ ∀ row ∈ grid, row.length = numCols := by
  refine ⟨gridSpec city src numRows numCols n, n + 2 + 2 * (numRows * numCols),
    get_building_info_closed city numRows numCols src n hv, ?_, ?_⟩
  · simp [gridSpec]
  · intro row hrow
    simp only [gridSpec, List.mem_map] at hrow
    obtain ⟨r, -, rfl⟩ := hrow
    simp

/-- C3, witness: a 2×3 grid on the example model. -/
theorem grid_shape_witness :
    ∃ grid nf, get_building_info cityEx 2 3 srcEx 0 = .ok (cityEx, grid, nf) ∧
      grid.length = 2 ∧ ∀ row ∈ grid, row.length = 3 :=
  grid_shape cityEx 2 3 srcEx 0 (by decide)

/-- C5.  The closed form of the traversal: on a valid model the call
succeeds, and its grid is `gridSpec`, whose cell `(r, j)` holds the chain
values sampled with the draws at cursors `n + 2 + 2*(r*C + j)` (height)
and `n + 2 + 2*(r*C + j) + 1` (color) — i.e. exactly two draws per cell,
height before color, cells ordered row-major by `r*C + j`; the final
cursor `n + 2 + 2*R*C` confirms the total. -/
theorem draws_two_per_cell_row_major (city : MarkovCity)
    (numRows numCols : ℕ) (src : ℕ → ℚ) (n : ℕ)
    (hv : validCityB city = true) :
    get_building_info city numRows numCols src n =
      .ok (city, gridSpec city src numRows numCols n,
           n + 2 + 2 * (numRows * numCols)) :=
  get_building_info_closed city numRows numCols src n hv

/-- C5, witness: the 1×2 grid on the example model. -/
theorem draws_two_per_cell_row_major_witness :
    get_building_info cityEx 1 2 srcEx 0 =
      .ok (cityEx, gridSpec cityEx srcEx 1 2 0, 0 + 2 + 2 * (1 * 2)) :=
  draws_two_per_cell_row_major cityEx 1 2 srcEx 0 (by decide)

/-- C6.  Determinism with respect to the randomness source: the result of
`get_building_info` is a function of the model, the dimensions and the
sequence of drawn values only — two sources replaying identical values
give identical results. -/
theorem generation_deterministic (city : MarkovCity) (numRows numCols n : ℕ)
    (s1 s2 : ℕ → ℚ) (hagree : ∀ k, s1 k = s2 k) :
    get_building_info city numRows numCols s1 n =
      get_building_info city numRows numCols s2 n := by
  rw [funext hagree]

/-- C6, witness: two syntactically different sources with equal values. -/
theorem generation_deterministic_witness :
    get_building_info cityEx 2 2 srcEx 0 =
      get_building_info cityEx 2 2 (fun _ => mkRat 1 3) 0 :=
  generation_deterministic cityEx 2 2 0 srcEx (fun _ => mkRat 1 3)
    (fun _ => rfl)

/-- Default cell used only to state `getD`-based cell lookups. -/
def cellDefault : Cell := (0, (0, 0, 0))

/-- C4.  No chain reset at row boundaries: for any row `r` with a row
after it, the cell stored at `(r+1, 0)` is obtained by one sampling step
(`nextH`/`nextC`, with the next two draws) from the height and color
stored at `(r, C-1)` — the state resulting from the last cell of one row
is exactly the state fed into the first cell of the next row. -/
theorem chain_continuity (city : MarkovCity) (src : ℕ → ℚ)
    (n numRows numCols r : ℕ) (hv : validCityB city = true)
    (hC : 0 < numCols) (hr : r + 1 < numRows) :
    ∃ grid nf h c,
      get_building_info city numRows numCols src n = .ok (city, grid, nf) ∧
      (grid.getD r []).getD (numCols - 1) cellDefault = (h, c) ∧
      (grid.getD (r + 1) []).getD 0 cellDefault =
        (nextH city h (src (n + 2 + 2 * ((r + 1) * numCols))),
         nextC city c (src (n + 2 + 2 * ((r + 1) * numCols) + 1))) := by
  refine ⟨gridSpec city src numRows numCols n, n + 2 + 2 * (numRows * numCols),
    hChain city src (initH city (src n)) (n + 2) ((r + 1) * numCols),
    cChain city src (initC city (src (n + 1))) (n + 2) ((r + 1) * numCols),
    get_building_info_closed city numRows numCols src n hv, ?_, ?_⟩
  all_goals
    have hcell_eq : ∀ ri j : ℕ, ri < numRows → j < numCols →
        ((gridSpec city src numRows numCols n).getD ri []).getD j cellDefault =
          (hChain city src (initH city (src n)) (n + 2) (ri * numCols + j + 1),
           cChain city src (initC city (src (n + 1))) (n + 2)
             (ri * numCols + j + 1)) := by
      intro ri j hri hj
      have hrow_eq : (gridSpec city src numRows numCols n).getD ri [] =
          (List.range numCols).map
            (fun j => (hChain city src (initH city (src n)) (n + 2)
                         (ri * numCols + j + 1),
                       cChain city src (initC city (src (n + 1))) (n + 2)
                         (ri * numCols + j + 1))) := by
        rw [gridSpec, List.getD_eq_getElem _ _ (by simpa using hri)]
        simp only [List.getElem_map, List.getElem_range]
      rw [hrow_eq, List.getD_eq_getElem _ _ (by simpa using hj)]
      simp only [List.getElem_map, List.getElem_range]
  · rw [hcell_eq r (numCols - 1) (by omega) (by omega)]
    have hidx : r * numCols + (numCols - 1) + 1 = (r + 1) * numCols := by
      cases numCols with
      | zero => omega
      | succ m =>
        simp only [Nat.succ_sub_one]
        ring
    rw [hidx]
  · rw [hcell_eq (r + 1) 0 hr hC]
    rfl

/-- C4, witness at a 2×2 grid (the spec's own continuity test case). -/
theorem chain_continuity_witness :
    ∃ grid nf h c,
      get_building_info cityEx 2 2 srcEx 0 = .ok (cityEx, grid, nf) ∧
      (grid.getD 0 []).getD (2 - 1) cellDefault = (h, c) ∧
      (grid.getD (0 + 1) []).getD 0 cellDefault =
        (nextH cityEx h (srcEx (0 + 2 + 2 * ((0 + 1) * 2))),
         nextC cityEx c (srcEx (0 + 2 + 2 * ((0 + 1) * 2) + 1))) :=
  chain_continuity cityEx srcEx 0 2 2 0 (by decide) (by decide) (by decide)

/-- C7.  A successor-distribution lookup outside the model's state set
raises `KeyError` (the code's realization of the spec's UnknownStateError),
while for every state in the key set the lookup succeeds, building the
probability vector aligned to the model's state order (`nextH`/`nextC`
select from `heights`/`colors` by index into that aligned vector) and
consuming one draw.  `hkh`/`hkc` record that `heights`/`colors` are the
matrices' key lists, as `__init__` always sets them. -/
theorem unknown_state_lookup (city : MarkovCity) (src : ℕ → ℚ) (n : ℕ)
    (h : ℤ) (c : Color) (hv : validCityB city = true)
    (hkh : city.heights = city.height_transition_matrix.map Prod.fst)
    (hkc : city.colors = city.color_transition_matrix.map Prod.fst) :
    (h ∉ city.height_transition_matrix.map Prod.fst →
      get_next_height city h src n = .error .keyError) ∧
    (h ∈ city.height_transition_matrix.map Prod.fst →
      get_next_height city h src n = .ok (nextH city h (src n), n + 1)) ∧
    (c ∉ city.color_transition_matrix.map Prod.fst →
      get_next_color city c src n = .error .keyError) ∧
    (c ∈ city.color_transition_matrix.map Prod.fst →
      get_next_color city c src n = .ok (nextC city c (src n), n + 1)) := by
  refine ⟨?_, ?_, ?_, ?_⟩
  · intro hmem
    have hnone : dlookup h city.height_transition_matrix = none :=
      (dlookup_eq_none_iff _ _).mpr hmem
    simp only [get_next_height, hnone]
  · intro hmem
    exact get_next_height_ok hv (by rw [hkh]; exact hmem) src n
  · intro hmem
    have hnone : dlookup c city.color_transition_matrix = none :=
      (dlookup_eq_none_iff _ _).mpr hmem
    simp only [get_next_color, hnone]
  · intro hmem
    exact get_next_color_ok hv (by rw [hkc]; exact hmem) src n

/-- C7, witness: height 5 and a color not in the palette raise `KeyError`;
height 0 and `colA` sample successfully. -/
theorem unknown_state_lookup_witness :
    (get_next_height cityEx 5 srcEx 0 = .error .keyError) ∧
    (get_next_height cityEx 0 srcEx 0 = .ok (nextH cityEx 0 (srcEx 0), 1)) ∧
    (get_next_color cityEx (mkRat 1 2, 0, 0) srcEx 0 = .error .keyError) ∧
    (get_next_color cityEx colA srcEx 0 = .ok (nextC cityEx colA (srcEx 0), 1)) :=
  ⟨(unknown_state_lookup cityEx srcEx 0 5 (mkRat 1 2, 0, 0) (by decide)
      (by decide) (by decide)).1 (by decide),
   (unknown_state_lookup cityEx srcEx 0 0 colA (by decide)
      (by decide) (by decide)).2.1 (by decide),
   (unknown_state_lookup cityEx srcEx 0 5 (mkRat 1 2, 0, 0) (by decide)
      (by decide) (by decide)).2.2.1 (by decide),
   (unknown_state_lookup cityEx srcEx 0 0 colA (by decide)
      (by decide) (by decide)).2.2.2 (by decide)⟩

/-- The absorbing, deterministic height transition matrix of the spec's
end-to-end example: `{0: {0: 1.0, 1: 0.0}, 1: {0: 0.0, 1: 1.0}}`. -/
def htm8 : List (ℤ × List (ℤ × ℚ)) := [(0, [(0, 1), (1, 0)]), (1, [(0, 0), (1, 1)])]

/-- The deterministic height prior `{0: 1.0, 1: 0.0}` of the example. -/
def hpv8 : List (ℤ × ℚ) := [(0, 1), (1, 0)]

theorem selectIdx_one_zero {u : ℚ} (hu : u < 1) :
    selectIdx [1, 0] u = 0 := by
  simp [selectIdx, hu]

theorem initH_htm8 (city : MarkovCity)
    (hp : city.height_prior_vector = hpv8) (hhs : city.heights = [0, 1])
    (u : ℚ) (hu : u < 1) : initH city u = 0 := by
  simp only [initH, hp, hhs]
  have hl : lookupAll hpv8 ([0, 1] : List ℤ) = some [1, 0] := rfl
  rw [hl, Option.getD_some, selectIdx_one_zero hu]
  rfl

theorem nextH_htm8 (city : MarkovCity)
    (hm : city.height_transition_matrix = htm8) (hhs : city.heights = [0, 1])
    (u : ℚ) (hu : u < 1) : nextH city 0 u = 0 := by
  simp only [nextH, heightRow, hm, hhs]
  have hd : dlookup (0 : ℤ) htm8 = some [(0, 1), (1, 0)] := rfl
  simp only [hd]
  have hl : lookupAll [((0 : ℤ), (1 : ℚ)), (1, 0)] ([0, 1] : List ℤ) =
      some [1, 0] := rfl
  rw [hl, Option.getD_some, selectIdx_one_zero hu]
  rfl

/-- C8.  End-to-end deterministic-chain propagation: with height states
`{0, 1}`, the absorbing matrix `htm8` and prior `hpv8`, any valid color
model and any sequence of draw values in `[0, 1)`, every cell of the
returned grid has height 0. -/
theorem deterministic_chain_all_zero (ctm : List (Color × List (Color × ℚ)))
    (cpv : List (Color × ℚ)) (numRows numCols : ℕ) (src : ℕ → ℚ) (n : ℕ)
    (city : MarkovCity)
    (hinit : MarkovCity.init htm8 hpv8 ctm cpv = some city)
    (hv : validCityB city = true)
    (hsrc : ∀ k, 0 ≤ src k ∧ src k < 1) :
    ∃ grid nf,
      get_building_info city numRows numCols src n = .ok (city, grid, nf) ∧
      ∀ row ∈ grid, ∀ cell ∈ row, cell.1 = 0 := by
  have hrfl : MarkovCity.init htm8 hpv8 ctm cpv =
      some { height_transition_matrix := htm8
             height_prior_vector := hpv8
             heights := [0, 1]
             max_height := 1
             color_transition_matrix := ctm
             color_prior_vector := cpv
             colors := ctm.map Prod.fst } := rfl
  rw [hrfl, Option.some.injEq] at hinit
  have hm : city.height_transition_matrix = htm8 := by rw [← hinit]
  have hp : city.height_prior_vector = hpv8 := by rw [← hinit]
  have hhs : city.heights = [0, 1] := by rw [← hinit]
  refine ⟨gridSpec city src numRows numCols n,
    n + 2 + 2 * (numRows * numCols),
    get_building_info_closed city numRows numCols src n hv, ?_⟩
  intro row hrow cell hcell
  simp only [gridSpec, List.mem_map] at hrow
  obtain ⟨r, -, rfl⟩ := hrow
  simp only [List.mem_map] at hcell
  obtain ⟨j, -, rfl⟩ := hcell
  show hChain city src (initH city (src n)) (n + 2) (r * numCols + j + 1) = 0
  rw [initH_htm8 city hp hhs _ (hsrc n).2]
  generalize r * numCols + j + 1 = k
  induction k with
  | zero => rfl
  | succ k ih =>
    show nextH city (hChain city src 0 (n + 2) k) (src (n + 2 + 2 * k)) = 0
    rw [ih]
    exact nextH_htm8 city hm hhs _ (hsrc _).2

/-- The object `__init__` builds from the C8 example data with the example
color model. -/
def city8 : MarkovCity :=
  { height_transition_matrix := htm8
    height_prior_vector := hpv8
    heights := [0, 1]
    max_height := 1
    color_transition_matrix := ctmEx
    color_prior_vector := cpvEx
    colors := [colA, colB] }

/-- C8, witness: a 2×2 grid from the deterministic height chain. -/
theorem deterministic_chain_all_zero_witness :
    ∃ grid nf,
      get_building_info city8 2 2 srcEx 0 = .ok (city8, grid, nf) ∧
      ∀ row ∈ grid, ∀ cell ∈ row, cell.1 = 0 :=
  deterministic_chain_all_zero ctmEx cpvEx 2 2 srcEx 0 city8 (by decide)
    (by decide)
    (fun _ => ⟨(by decide : (0 : ℚ) ≤ mkRat 1 3), (by decide : mkRat 1 3 < 1)⟩)

/-- C9.  Generation mutates nothing: whenever `get_building_info` returns,
the returned object — and in particular every one of its fields: the two
transition matrices, the two priors, the ordered state lists, and
`max_height` — is the object it was called on. -/
theorem generation_does_not_mutate (city : MarkovCity)
    (numRows numCols : ℕ) (src : ℕ → ℚ) (n : ℕ) (city1 : MarkovCity)
    (grid : Grid) (nf : ℕ)
    (hout : get_building_info city numRows numCols src n = .ok (city1, grid, nf)) :
    city1 = city ∧
    city1.height_transition_matrix = city.height_transition_matrix ∧
    city1.height_prior_vector = city.height_prior_vector ∧
    city1.heights = city.heights ∧
    city1.max_height = city.max_height ∧
    city1.color_transition_matrix = city.color_transition_matrix ∧
    city1.color_prior_vector = city.color_prior_vector ∧
    city1.colors = city.colors := by
  have h1 := get_building_info_frame city numRows numCols src n city1 grid nf hout
  subst h1
  exact ⟨rfl, rfl, rfl, rfl, rfl, rfl, rfl, rfl⟩

/-- C9, witness, instantiated on a concrete successful 1×1 run. -/
theorem generation_does_not_mutate_witness :
    cityEx = cityEx ∧
    cityEx.height_transition_matrix = cityEx.height_transition_matrix ∧
    cityEx.height_prior_vector = cityEx.height_prior_vector ∧
    cityEx.heights = cityEx.heights ∧
    cityEx.max_height = cityEx.max_height ∧
    cityEx.color_transition_matrix = cityEx.color_transition_matrix ∧
    cityEx.color_prior_vector = cityEx.color_prior_vector ∧
    cityEx.colors = cityEx.colors :=
  generation_does_not_mutate cityEx 1 1 srcEx 0 cityEx
    (gridSpec cityEx srcEx 1 1 0) (0 + 2 + 2 * (1 * 1))
    (get_building_info_closed cityEx 1 1 srcEx 0 (by decide))
